import Mathlib

/-!
# Verification of the MCP protocol engine (`src/mcp-protocol.js`)

Shallow embedding of the protocol engine of the repository
`mcp-supabase-native`: the `MCPServer` class in `src/mcp-protocol.js`
(tool registry, message dispatch, response/error framing), together with
theorems settling the frozen claims about it.

Modelling conventions:

* JavaScript values are `JsVal`; `undef` (JS `undefined`) is distinct
  from `null`, because property access on a missing key yields
  `undefined` while `JSON.stringify` treats the two differently.
* JS numbers are modelled as `Int` (the claims never exercise
  non-integral numerics).
* A JS exception is a `JsError` carrying its `.message` string.
* `this.tools` is a JS `Map`, i.e. an insertion-ordered association
  list: `Map.set` on a present key replaces the value in place keeping
  the key's position, otherwise appends.
* An `async` function that may reject is modelled as
  `Except JsError _`.  Crucially, in `handleMessage` the branch
  `return this.handleToolCall(params, id)` returns the promise without
  `await`, so a rejection of `handleToolCall` is NOT caught by the
  surrounding `try/catch` of `handleMessage`: it escapes to the caller
  (the transport layer).  `handleInitialize`, `handleToolsList` and
  `handleInitialized` are synchronous, so a synchronous throw inside
  `handleInitialize` IS caught by that `try/catch`.
* In that `catch` block the code evaluates `message.id`; when `message`
  itself is `null`/`undefined` this second property access throws again,
  so the exception escapes `handleMessage` entirely.
-/

/-- A JavaScript value, as far as the engine inspects values. -/
inductive JsVal where
  | undef : JsVal
  | null : JsVal
  | bool : Bool → JsVal
  | num : Int → JsVal
  | str : String → JsVal
  | arr : List JsVal → JsVal
  | obj : List (String × JsVal) → JsVal
deriving Repr

/-- A thrown JS exception; the engine only ever reads `.message`. -/
structure JsError where
  message : String
deriving Repr, DecidableEq

/-- Property lookup on an object's field list: the stored value, or
`undefined` when the key is absent. -/
def objLookup (fs : List (String × JsVal)) (k : String) : JsVal :=
  match fs.lookup k with
  | some v => v
  | none => JsVal.undef

/-- Total version of JS property access: `undefined` on non-objects. -/
def propVal (v : JsVal) (k : String) : JsVal :=
  match v with
  | JsVal.obj fs => objLookup fs k
  | _ => JsVal.undef

/-- JS property access `v[k]`: throws a `TypeError` when `v` is
`null`/`undefined`, otherwise yields `propVal` (property access on a
primitive consults its prototype; none of the keys the engine reads —
`method`, `params`, `id`, `capabilities`, `name`, `arguments` — is a
prototype property, so the result is `undefined` there). -/
def jsGetProp (v : JsVal) (k : String) : Except JsError JsVal :=
  match v with
  | JsVal.undef =>
      Except.error ⟨"Cannot read properties of undefined (reading " ++ k ++ ")"⟩
  | JsVal.null =>
      Except.error ⟨"Cannot read properties of null (reading " ++ k ++ ")"⟩
  | v => Except.ok (propVal v k)

/-- JS `String(·)` conversion, as used by template literals
(`` `Method not found: ${method}` ``).  Array conversion joins the
elements with `","`, rendering `null`/`undefined` elements as `""`. -/
def jsToString : JsVal → String
  | JsVal.undef => "undefined"
  | JsVal.null => "null"
  | JsVal.bool b => cond b "true" "false"
  | JsVal.num n => toString n
  | JsVal.str s => s
  | JsVal.arr xs =>
      String.intercalate "," (xs.attach.map (fun vh =>
        match vh with
        | ⟨JsVal.undef, _⟩ => ""
        | ⟨JsVal.null, _⟩ => ""
        | ⟨v, _⟩ => jsToString v))
  | JsVal.obj _ => "[object Object]"
termination_by v => sizeOf v
decreasing_by
  rename_i hv
  have := List.sizeOf_lt_of_mem hv
  simp at *
  omega

/-- One hex digit. -/
def hexDigit (n : Nat) : Char :=
  if n < 10 then Char.ofNat (48 + n) else Char.ofNat (87 + n)

/-- JSON escaping of one character, per `QuoteJSONString`. -/
def escapeJsonChar (c : Char) : String :=
  if c = '"' then "\\\""
  else if c = '\\' then "\\\\"
  else if c = '\n' then "\\n"
  else if c = '\r' then "\\r"
  else if c = '\t' then "\\t"
  else if c = Char.ofNat 8 then "\\b"
  else if c = Char.ofNat 12 then "\\f"
  else if c.toNat < 32 then
    "\\u00" ++ String.mk [hexDigit (c.toNat / 16), hexDigit (c.toNat % 16)]
  else String.singleton c

/-- JSON string quoting. -/
def jsonQuote (s : String) : String :=
  "\"" ++ String.join (s.toList.map escapeJsonChar) ++ "\""

mutual

/-- `JSON.stringify(v, null, 2)` with current indentation `indent`, per
the ECMA-262 `SerializeJSONProperty` algorithm with `gap = "  "`:
`none` models the JS call returning `undefined` (for `undefined`
values).  Inside arrays an unserializable element renders as `"null"`
(`jsonStrElems`); inside objects the member is skipped
(`jsonStrMembers`). -/
def jsonStr (indent : String) : JsVal → Option String
  | JsVal.undef => none
  | JsVal.null => some "null"
  | JsVal.bool b => some (cond b "true" "false")
  | JsVal.num n => some (toString n)
  | JsVal.str s => some (jsonQuote s)
  | JsVal.arr xs =>
      let items := jsonStrElems (indent ++ "  ") xs
      some (if items.isEmpty then "[]"
            else "[\n" ++ indent ++ "  " ++
                 String.intercalate (",\n" ++ indent ++ "  ") items ++
                 "\n" ++ indent ++ "]")
  | JsVal.obj fs =>
      let items := jsonStrMembers (indent ++ "  ") fs
      some (if items.isEmpty then "\x7b\x7d"
            else "\x7b\n" ++ indent ++ "  " ++
                 String.intercalate (",\n" ++ indent ++ "  ") items ++
                 "\n" ++ indent ++ "\x7d")

/-- Serialized elements of a JSON array (`SerializeJSONArray`). -/
def jsonStrElems (indent : String) : List JsVal → List String
  | [] => []
  | x :: xs => (jsonStr indent x).getD "null" :: jsonStrElems indent xs

/-- Serialized members of a JSON object (`SerializeJSONObject`). -/
def jsonStrMembers (indent : String) : List (String × JsVal) → List String
  | [] => []
  | (k, v) :: fs =>
      (match jsonStr indent v with
       | some sv => [jsonQuote k ++ ": " ++ sv]
       | none => []) ++ jsonStrMembers indent fs

end

/-- The value stored in the `text` field of a tool-call result:
`JSON.stringify(result, null, 2)`, which is `undefined` when the result
is unserializable. -/
def jsonTextOf (v : JsVal) : JsVal :=
  match jsonStr "" v with
  | some s => JsVal.str s
  | none => JsVal.undef

/-! ## The `MCPServer` class (`src/mcp-protocol.js`) -/

/-- A registered tool descriptor, as stored by `addTool`
(`src/mcp-protocol.js:14-21`).  The handler is the tool collaborator's
asynchronous function: it yields a JSON value or rejects with an error
whose `.message` is read. -/
structure Tool where
  name : String
  description : JsVal
  inputSchema : JsVal
  handler : JsVal → Except JsError JsVal

/-- The engine's state (`src/mcp-protocol.js:4-11`): the tool registry
(a JS `Map`, insertion ordered), the unused `resources`/`prompts` maps,
and the session-capabilities slot (initially `null`). -/
structure MCPServer where
  tools : List (String × Tool)
  resources : List (String × JsVal)
  prompts : List (String × JsVal)
  clientCapabilities : JsVal

/-- A freshly constructed `MCPServer`. -/
def MCPServer.init : MCPServer := ⟨[], [], [], JsVal.null⟩

/-- JS `Map.prototype.set`: replace in place when the key is present
(keeping its position), else append. -/
def mapSet (m : List (String × Tool)) (k : String) (v : Tool) :
    List (String × Tool) :=
  if m.any (fun p => p.1 = k) then
    m.map (fun p => if p.1 = k then (k, v) else p)
  else m ++ [(k, v)]

/-- JS `Map.prototype.get` keyed by an arbitrary JS value; the registry
only ever holds string keys, so a non-string lookup misses. -/
def mapGet (m : List (String × Tool)) (k : JsVal) : Option Tool :=
  match k with
  | JsVal.str s => m.lookup s
  | _ => none

/-- `addTool(name, description, inputSchema, handler)`
(`src/mcp-protocol.js:14-21`). -/
def MCPServer.addTool (s : MCPServer) (name : String)
    (description inputSchema : JsVal)
    (handler : JsVal → Except JsError JsVal) : MCPServer :=
  { s with tools := mapSet s.tools name ⟨name, description, inputSchema, handler⟩ }

/-- `createErrorResponse(id, code, message)` (`src/mcp-protocol.js:126-135`). -/
def createErrorResponse (id : JsVal) (code : Int) (message : String) : JsVal :=
  JsVal.obj [("jsonrpc", JsVal.str "2.0"), ("id", id),
    ("error", JsVal.obj [("code", JsVal.num code),
                         ("message", JsVal.str message)])]

/-- The fixed `initialize` result envelope (`src/mcp-protocol.js:52-74`). -/
def initializeResult (id : JsVal) : JsVal :=
  JsVal.obj [("jsonrpc", JsVal.str "2.0"), ("id", id),
    ("result", JsVal.obj [
      ("protocolVersion", JsVal.str "2024-11-05"),
      ("capabilities", JsVal.obj [
        ("tools", JsVal.obj [("listChanged", JsVal.bool false)]),
        ("resources", JsVal.obj [("subscribe", JsVal.bool false),
                                 ("listChanged", JsVal.bool false)]),
        ("prompts", JsVal.obj [("listChanged", JsVal.bool false)])]),
      ("serverInfo", JsVal.obj [
        ("name", JsVal.str "supabase-mcp-server"),
        ("version", JsVal.str "1.0.0")])])]

/-- `handleInitialize(params, id)` (`src/mcp-protocol.js:49-75`): reads
`params.capabilities` (which throws when `params` is `null`/`undefined`
— a synchronous throw, since this method is not `async`), stores it in
the session slot, and returns the fixed result envelope. -/
def handleInitialize (s : MCPServer) (params id : JsVal) :
    Except JsError (MCPServer × JsVal) :=
  match jsGetProp params "capabilities" with
  | Except.error e => Except.error e
  | Except.ok caps =>
      Except.ok ({ s with clientCapabilities := caps }, initializeResult id)

/-- The public projection of a tool used by `handleToolsList`
(`src/mcp-protocol.js:83-87`): `name`, `description`, `inputSchema`
only — never the `handler`. -/
def toolPublic (t : Tool) : JsVal :=
  JsVal.obj [("name", JsVal.str t.name),
             ("description", t.description),
             ("inputSchema", t.inputSchema)]

/-- `handleToolsList(id)` (`src/mcp-protocol.js:82-96`):
`Array.from(this.tools.values())` yields descriptors in insertion
order. -/
def handleToolsList (s : MCPServer) (id : JsVal) : JsVal :=
  JsVal.obj [("jsonrpc", JsVal.str "2.0"), ("id", id),
    ("result", JsVal.obj [
      ("tools", JsVal.arr (s.tools.map (fun p => toolPublic p.2)))])]

/-- The success envelope of `handleToolCall` (`src/mcp-protocol.js:109-120`):
one `text` content item holding `JSON.stringify(result, null, 2)`. -/
def toolCallResult (id result : JsVal) : JsVal :=
  JsVal.obj [("jsonrpc", JsVal.str "2.0"), ("id", id),
    ("result", JsVal.obj [
      ("content", JsVal.arr [
        JsVal.obj [("type", JsVal.str "text"),
                   ("text", jsonTextOf result)]])])]

/-- `handleToolCall(params, id)` (`src/mcp-protocol.js:98-124`), an
`async` method.  `Except.error` is a rejected promise: destructuring
`const { name, arguments: args } = params` rejects when `params` is
`null`/`undefined`.  A registered tool's handler runs inside the inner
`try/catch`, so its failure becomes a `-32603` envelope; an unknown
name becomes a `-32602` envelope. -/
def handleToolCall (s : MCPServer) (params id : JsVal) :
    Except JsError JsVal :=
  match jsGetProp params "name" with
  | Except.error e => Except.error e
  | Except.ok name =>
    match jsGetProp params "arguments" with
    | Except.error e => Except.error e
    | Except.ok args =>
      match mapGet s.tools name with
      | none =>
          Except.ok (createErrorResponse id (-32602)
            ("Tool not found: " ++ jsToString name))
      | some tool =>
          match tool.handler args with
          | Except.ok result => Except.ok (toolCallResult id result)
          | Except.error e =>
              Except.ok (createErrorResponse id (-32603)
                ("Tool execution failed: " ++ e.message))

/-- The outcome of one `handleMessage` call that did not reject: the
(possibly updated) engine state, the returned value (`JsVal.null` for
"no envelope"), and the events emitted on the way (`this.emit(...)`). -/
structure HandleResult where
  server : MCPServer
  response : JsVal
  events : List String

/-- `handleMessage(message)` (`src/mcp-protocol.js:24-47`), the single
dispatch entry point; `Except.error` is an exception escaping to the
transport layer.  Faithful compilation of the `try/catch` + `switch`:

* `const { method, params, id } = message` throws iff `message` is
  `null`/`undefined`; the `catch` block then evaluates `message.id`,
  which throws again on the same values, so that exception escapes.
* Once destructuring succeeded, the only statement inside the `try`
  that can throw synchronously is the (non-async) `handleInitialize`
  call; its exception is caught and framed as `-32603` with
  `message.id`.
* `return this.handleToolCall(params, id)` returns the promise without
  `await`, so a rejection of `handleToolCall` is NOT caught by this
  `try/catch` and escapes.
* `handleToolsList` and `handleInitialized` cannot throw, and the
  `default` branch's template literal cannot throw.
* The `switch` compares `method` by strict equality with four string
  literals; any other value falls to `default`. -/
def handleMessage (s : MCPServer) (message : JsVal) :
    Except JsError HandleResult :=
  match message with
  | JsVal.undef =>
      Except.error ⟨"Cannot read properties of undefined (reading id)"⟩
  | JsVal.null =>
      Except.error ⟨"Cannot read properties of null (reading id)"⟩
  | _ =>
    let method := propVal message "method"
    let params := propVal message "params"
    let id := propVal message "id"
    match method with
    | JsVal.str mname =>
      if mname = "initialize" then
        match handleInitialize s params id with
        | Except.ok (s', resp) => Except.ok ⟨s', resp, []⟩
        | Except.error e =>
            Except.ok ⟨s, createErrorResponse (propVal message "id")
              (-32603) e.message, []⟩
      else if mname = "tools/list" then
        Except.ok ⟨s, handleToolsList s id, []⟩
      else if mname = "tools/call" then
        match handleToolCall s params id with
        | Except.ok resp => Except.ok ⟨s, resp, []⟩
        | Except.error e => Except.error e
      else if mname = "notifications/initialized" then
        -- `handleInitialized()` (`src/mcp-protocol.js:77-80`):
        -- emits one "initialized" signal and returns `null`.
        Except.ok ⟨s, JsVal.null, ["initialized"]⟩
      else
        Except.ok ⟨s, createErrorResponse id (-32601)
          ("Method not found: " ++ jsToString (JsVal.str mname)), []⟩
    | other =>
        Except.ok ⟨s, createErrorResponse id (-32601)
          ("Method not found: " ++ jsToString other), []⟩

/-! ## Shared facts about the dispatcher -/

/-- Property access on an object value never throws. -/
theorem jsGetProp_obj (fs : List (String × JsVal)) (k : String) :
    jsGetProp (JsVal.obj fs) k = Except.ok (objLookup fs k) := rfl

/-- `propVal` on an object value is field lookup. -/
theorem propVal_obj (fs : List (String × JsVal)) (k : String) :
    propVal (JsVal.obj fs) k = objLookup fs k := rfl

/-- Dispatch of `notifications/initialized`: no envelope, one event. -/
theorem handleMessage_obj_notif (s : MCPServer) (fs : List (String × JsVal))
    (hm : objLookup fs "method" = JsVal.str "notifications/initialized") :
    handleMessage s (JsVal.obj fs) =
      Except.ok ⟨s, JsVal.null, ["initialized"]⟩ := by
  simp [handleMessage, propVal, hm]

/-- Dispatch of `tools/list`. -/
theorem handleMessage_obj_toolsList (s : MCPServer) (fs : List (String × JsVal))
    (hm : objLookup fs "method" = JsVal.str "tools/list") :
    handleMessage s (JsVal.obj fs) =
      Except.ok ⟨s, handleToolsList s (objLookup fs "id"), []⟩ := by
  simp [handleMessage, propVal, hm]

/-- Property access does not throw away from `null`/`undefined`. -/
theorem jsGetProp_ok (v : JsVal) (k : String)
    (h1 : v ≠ JsVal.undef) (h2 : v ≠ JsVal.null) :
    jsGetProp v k = Except.ok (propVal v k) := by
  cases v <;> simp_all [jsGetProp]

/-- Dispatch of `initialize` when `params` is destructurable: store the
`capabilities` property, return the fixed envelope. -/
theorem handleMessage_obj_init (s : MCPServer) (fs : List (String × JsVal))
    (hm : objLookup fs "method" = JsVal.str "initialize")
    (hp1 : objLookup fs "params" ≠ JsVal.undef)
    (hp2 : objLookup fs "params" ≠ JsVal.null) :
    handleMessage s (JsVal.obj fs) =
      Except.ok
        ⟨{ s with clientCapabilities := propVal (objLookup fs "params") "capabilities" },
         initializeResult (objLookup fs "id"), []⟩ := by
  simp [handleMessage, propVal_obj, hm, handleInitialize,
    jsGetProp_ok _ _ hp1 hp2]

/-- Dispatch of `initialize` when `params` is `null`/`undefined`: the
synchronous `TypeError` is caught and framed as `-32603`. -/
theorem handleMessage_obj_init_badparams (s : MCPServer)
    (fs : List (String × JsVal))
    (hm : objLookup fs "method" = JsVal.str "initialize")
    (hp : objLookup fs "params" = JsVal.null ∨
          objLookup fs "params" = JsVal.undef) :
    ∃ emsg, handleMessage s (JsVal.obj fs) =
      Except.ok ⟨s, createErrorResponse (objLookup fs "id") (-32603) emsg, []⟩ := by
  rcases hp with hp | hp
  · exact ⟨"Cannot read properties of null (reading capabilities)",
      by simp [handleMessage, propVal, hm, hp, handleInitialize, jsGetProp]⟩
  · exact ⟨"Cannot read properties of undefined (reading capabilities)",
      by simp [handleMessage, propVal, hm, hp, handleInitialize, jsGetProp]⟩

/-- Dispatch of `tools/call` with `null`/`undefined` params: the
rejected promise is returned without `await`, so it escapes. -/
theorem handleMessage_obj_toolsCall_badparams (s : MCPServer)
    (fs : List (String × JsVal))
    (hm : objLookup fs "method" = JsVal.str "tools/call")
    (hp : objLookup fs "params" = JsVal.null ∨
          objLookup fs "params" = JsVal.undef) :
    ∃ e, handleMessage s (JsVal.obj fs) = Except.error e := by
  rcases hp with hp | hp
  · exact ⟨⟨"Cannot read properties of null (reading name)"⟩,
      by simp [handleMessage, propVal, hm, hp, handleToolCall, jsGetProp]⟩
  · exact ⟨⟨"Cannot read properties of undefined (reading name)"⟩,
      by simp [handleMessage, propVal, hm, hp, handleToolCall, jsGetProp]⟩

/-- Dispatch of `tools/call` (destructurable params) naming no
registered tool. -/
theorem handleMessage_obj_toolsCall_unreg (s : MCPServer)
    (fs : List (String × JsVal))
    (hm : objLookup fs "method" = JsVal.str "tools/call")
    (hp1 : objLookup fs "params" ≠ JsVal.undef)
    (hp2 : objLookup fs "params" ≠ JsVal.null)
    (hn : mapGet s.tools (propVal (objLookup fs "params") "name") = none) :
    handleMessage s (JsVal.obj fs) =
      Except.ok ⟨s, createErrorResponse (objLookup fs "id") (-32602)
        ("Tool not found: " ++
          jsToString (propVal (objLookup fs "params") "name")), []⟩ := by
  simp [handleMessage, propVal_obj, hm, handleToolCall,
    jsGetProp_ok _ _ hp1 hp2, hn]

/-- Dispatch of `tools/call` on a registered tool whose handler
succeeds. -/
theorem handleMessage_obj_toolsCall_ok (s : MCPServer)
    (fs : List (String × JsVal)) (tool : Tool) (v : JsVal)
    (hm : objLookup fs "method" = JsVal.str "tools/call")
    (hp1 : objLookup fs "params" ≠ JsVal.undef)
    (hp2 : objLookup fs "params" ≠ JsVal.null)
    (ht : mapGet s.tools (propVal (objLookup fs "params") "name") = some tool)
    (hh : tool.handler (propVal (objLookup fs "params") "arguments") =
          Except.ok v) :
    handleMessage s (JsVal.obj fs) =
      Except.ok ⟨s, toolCallResult (objLookup fs "id") v, []⟩ := by
  simp [handleMessage, propVal_obj, hm, handleToolCall,
    jsGetProp_ok _ _ hp1 hp2, ht, hh]

/-- Dispatch of `tools/call` on a registered tool whose handler
rejects. -/
theorem handleMessage_obj_toolsCall_err (s : MCPServer)
    (fs : List (String × JsVal)) (tool : Tool) (e : JsError)
    (hm : objLookup fs "method" = JsVal.str "tools/call")
    (hp1 : objLookup fs "params" ≠ JsVal.undef)
    (hp2 : objLookup fs "params" ≠ JsVal.null)
    (ht : mapGet s.tools (propVal (objLookup fs "params") "name") = some tool)
    (hh : tool.handler (propVal (objLookup fs "params") "arguments") =
          Except.error e) :
    handleMessage s (JsVal.obj fs) =
      Except.ok ⟨s, createErrorResponse (objLookup fs "id") (-32603)
        ("Tool execution failed: " ++ e.message), []⟩ := by
  simp [handleMessage, propVal_obj, hm, handleToolCall,
    jsGetProp_ok _ _ hp1 hp2, ht, hh]

/-- Dispatch of an unrecognized (string) method name. -/
theorem handleMessage_obj_default (s : MCPServer)
    (fs : List (String × JsVal)) (mname : String)
    (hm : objLookup fs "method" = JsVal.str mname)
    (h1 : mname ≠ "initialize") (h2 : mname ≠ "tools/list")
    (h3 : mname ≠ "tools/call") (h4 : mname ≠ "notifications/initialized") :
    handleMessage s (JsVal.obj fs) =
      Except.ok ⟨s, createErrorResponse (objLookup fs "id") (-32601)
        ("Method not found: " ++ mname), []⟩ := by
  simp [handleMessage, propVal, hm, h1, h2, h3, h4, jsToString]

/-! ## Envelope shape helpers -/

/-- The integer code under an envelope's `error.code` member, when the
envelope carries a numeric one. -/
def errorCode (v : JsVal) : Option Int :=
  match propVal (propVal v "error") "code" with
  | JsVal.num c => some c
  | _ => none

theorem errorCode_createErrorResponse (id : JsVal) (c : Int) (msg : String) :
    errorCode (createErrorResponse id c msg) = some c := rfl

theorem errorCode_initializeResult (id : JsVal) :
    errorCode (initializeResult id) = none := rfl

theorem errorCode_toolsList (s : MCPServer) (id : JsVal) :
    errorCode (handleToolsList s id) = none := rfl

theorem errorCode_toolCallResult (id v : JsVal) :
    errorCode (toolCallResult id v) = none := rfl

/-- A non-object message (other than `null`/`undefined`) has an
`undefined` method and falls to the `default` branch. -/
theorem handleMessage_prim (s : MCPServer) (m : JsVal)
    (h1 : m ≠ JsVal.undef) (h2 : m ≠ JsVal.null)
    (h3 : ∀ fs, m ≠ JsVal.obj fs) :
    handleMessage s m =
      Except.ok ⟨s, createErrorResponse JsVal.undef (-32601)
        ("Method not found: " ++ jsToString JsVal.undef), []⟩ := by
  cases m <;> simp_all [handleMessage, propVal]

/-- An object message whose `method` property is not a string falls to
the `default` branch (the `switch` compares by strict equality). -/
theorem handleMessage_obj_nonstr (s : MCPServer) (fs : List (String × JsVal))
    (mv : JsVal) (hmv : objLookup fs "method" = mv)
    (hns : ∀ str_, mv ≠ JsVal.str str_) :
    handleMessage s (JsVal.obj fs) =
      Except.ok ⟨s, createErrorResponse (objLookup fs "id") (-32601)
        ("Method not found: " ++ jsToString mv), []⟩ := by
  cases mv <;> simp_all [handleMessage, propVal_obj]

/-- Exhaustive inversion of a non-rejecting dispatch: every `Except.ok`
outcome of `handleMessage` takes one of these shapes (the arguments of
`createErrorResponse`, the stored capabilities, and the emitted events
are pinned down in each). -/
theorem handleMessage_ok_cases (s : MCPServer) (m : JsVal) (hr : HandleResult)
    (h : handleMessage s m = Except.ok hr) :
    (propVal m "method" = JsVal.str "notifications/initialized" ∧
       hr = ⟨s, JsVal.null, ["initialized"]⟩) ∨
    (propVal m "method" ≠ JsVal.str "notifications/initialized" ∧
      (hr = ⟨s, createErrorResponse (propVal m "id") (-32601)
            ("Method not found: " ++ jsToString (propVal m "method")), []⟩ ∨
       (propVal m "method" = JsVal.str "initialize" ∧
         hr = ⟨{ s with clientCapabilities := propVal (propVal m "params") "capabilities" },
               initializeResult (propVal m "id"), []⟩) ∨
       (propVal m "method" = JsVal.str "initialize" ∧
         ∃ emsg, hr = ⟨s, createErrorResponse (propVal m "id") (-32603) emsg, []⟩) ∨
       (propVal m "method" = JsVal.str "tools/list" ∧
         hr = ⟨s, handleToolsList s (propVal m "id"), []⟩) ∨
       (propVal m "method" = JsVal.str "tools/call" ∧
         mapGet s.tools (propVal (propVal m "params") "name") = none ∧
         hr = ⟨s, createErrorResponse (propVal m "id") (-32602)
           ("Tool not found: " ++ jsToString (propVal (propVal m "params") "name")), []⟩) ∨
       (propVal m "method" = JsVal.str "tools/call" ∧
         ∃ tool v, mapGet s.tools (propVal (propVal m "params") "name") = some tool ∧
           tool.handler (propVal (propVal m "params") "arguments") = Except.ok v ∧
           hr = ⟨s, toolCallResult (propVal m "id") v, []⟩) ∨
       (propVal m "method" = JsVal.str "tools/call" ∧
         ∃ tool e, mapGet s.tools (propVal (propVal m "params") "name") = some tool ∧
           tool.handler (propVal (propVal m "params") "arguments") = Except.error e ∧
           hr = ⟨s, createErrorResponse (propVal m "id") (-32603)
             ("Tool execution failed: " ++ e.message), []⟩))) := by
  cases m with
  | undef => simp [handleMessage] at h
  | null => simp [handleMessage] at h
  | bool b =>
      rw [handleMessage_prim s _ (by simp) (by simp) (by simp)] at h
      refine Or.inr ⟨by simp [propVal], Or.inl ?_⟩
      simp only [propVal]
      exact ((Except.ok.injEq _ _).mp h).symm
  | num n =>
      rw [handleMessage_prim s _ (by simp) (by simp) (by simp)] at h
      refine Or.inr ⟨by simp [propVal], Or.inl ?_⟩
      simp only [propVal]
      exact ((Except.ok.injEq _ _).mp h).symm
  | str str_ =>
      rw [handleMessage_prim s _ (by simp) (by simp) (by simp)] at h
      refine Or.inr ⟨by simp [propVal], Or.inl ?_⟩
      simp only [propVal]
      exact ((Except.ok.injEq _ _).mp h).symm
  | arr xs =>
      rw [handleMessage_prim s _ (by simp) (by simp) (by simp)] at h
      refine Or.inr ⟨by simp [propVal], Or.inl ?_⟩
      simp only [propVal]
      exact ((Except.ok.injEq _ _).mp h).symm
  | obj fs =>
      rcases hmv : objLookup fs "method" with _ | _ | b | n | mname | xs | gs
      case undef | null | bool | num | arr | obj =>
        rw [handleMessage_obj_nonstr s fs _ hmv (by simp)] at h
        exact Or.inr ⟨by simp [propVal_obj, hmv], Or.inl (by
          simp only [propVal_obj, hmv]
          exact (Except.ok.injEq _ _).mp h.symm ▸ rfl)⟩
      case str =>
        by_cases hI : mname = "initialize"
        · subst hI
          by_cases hpu : objLookup fs "params" = JsVal.undef
          · rcases handleMessage_obj_init_badparams s fs hmv (Or.inr hpu) with ⟨emsg, he⟩
            rw [he] at h
            exact Or.inr ⟨by simp [propVal_obj, hmv],
              Or.inr (Or.inr (Or.inl ⟨by simp [propVal_obj, hmv],
                emsg, by simp [propVal_obj, ← (Except.ok.injEq _ _).mp h]⟩))⟩
          · by_cases hpn : objLookup fs "params" = JsVal.null
            · rcases handleMessage_obj_init_badparams s fs hmv (Or.inl hpn) with ⟨emsg, he⟩
              rw [he] at h
              exact Or.inr ⟨by simp [propVal_obj, hmv],
                Or.inr (Or.inr (Or.inl ⟨by simp [propVal_obj, hmv],
                  emsg, by simp [propVal_obj, ← (Except.ok.injEq _ _).mp h]⟩))⟩
            · rw [handleMessage_obj_init s fs hmv hpu hpn] at h
              exact Or.inr ⟨by simp [propVal_obj, hmv],
                Or.inr (Or.inl ⟨by simp [propVal_obj, hmv],
                  by simp [propVal_obj, ← (Except.ok.injEq _ _).mp h]⟩)⟩
        · by_cases hL : mname = "tools/list"
          · subst hL
            rw [handleMessage_obj_toolsList s fs hmv] at h
            exact Or.inr ⟨by simp [propVal_obj, hmv],
              Or.inr (Or.inr (Or.inr (Or.inl ⟨by simp [propVal_obj, hmv],
                by simp [propVal_obj, ← (Except.ok.injEq _ _).mp h]⟩)))⟩
          · by_cases hC : mname = "tools/call"
            · subst hC
              by_cases hpu : objLookup fs "params" = JsVal.undef
              · rcases handleMessage_obj_toolsCall_badparams s fs hmv (Or.inr hpu) with ⟨e, he⟩
                rw [he] at h
                exact absurd h (by simp)
              · by_cases hpn : objLookup fs "params" = JsVal.null
                · rcases handleMessage_obj_toolsCall_badparams s fs hmv (Or.inl hpn) with ⟨e, he⟩
                  rw [he] at h
                  exact absurd h (by simp)
                · rcases hmg : mapGet s.tools (propVal (objLookup fs "params") "name") with _ | tool
                  · rw [handleMessage_obj_toolsCall_unreg s fs hmv hpu hpn hmg] at h
                    exact Or.inr ⟨by simp [propVal_obj, hmv],
                      Or.inr (Or.inr (Or.inr (Or.inr (Or.inl ⟨by simp [propVal_obj, hmv],
                        by simp [propVal_obj, hmg],
                        by simp [propVal_obj, ← (Except.ok.injEq _ _).mp h]⟩))))⟩
                  · rcases hha : tool.handler (propVal (objLookup fs "params") "arguments") with e | v
                    · rw [handleMessage_obj_toolsCall_err s fs tool e hmv hpu hpn hmg hha] at h
                      exact Or.inr ⟨by simp [propVal_obj, hmv],
                        Or.inr (Or.inr (Or.inr (Or.inr (Or.inr (Or.inr ⟨by simp [propVal_obj, hmv],
                          tool, e, by simp [propVal_obj, hmg], by simp [propVal_obj, hha],
                          by simp [propVal_obj, ← (Except.ok.injEq _ _).mp h]⟩)))))⟩
                    · rw [handleMessage_obj_toolsCall_ok s fs tool v hmv hpu hpn hmg hha] at h
                      exact Or.inr ⟨by simp [propVal_obj, hmv],
                        Or.inr (Or.inr (Or.inr (Or.inr (Or.inr (Or.inl ⟨by simp [propVal_obj, hmv],
                          tool, v, by simp [propVal_obj, hmg], by simp [propVal_obj, hha],
                          by simp [propVal_obj, ← (Except.ok.injEq _ _).mp h]⟩)))))⟩
            · by_cases hN : mname = "notifications/initialized"
              · subst hN
                rw [handleMessage_obj_notif s fs hmv] at h
                exact Or.inl ⟨by simp [propVal_obj, hmv],
                  ((Except.ok.injEq _ _).mp h).symm⟩
              · rw [handleMessage_obj_default s fs mname hmv hI hL hC hN] at h
                exact Or.inr ⟨by simp [propVal_obj, hmv, hN],
                  Or.inl (by simp [propVal_obj, hmv, jsToString,
                    ← (Except.ok.injEq _ _).mp h])⟩

/-! ## Registry (JS `Map`) facts -/

/-- `Map.set` membership test agrees with key membership. -/
theorem any_keys_iff (m : List (String × Tool)) (k : String) :
    (m.any (fun p => p.1 = k) = true) ↔ k ∈ m.map Prod.fst := by
  simp [List.any_eq_true]

/-- Setting a key that is already present leaves the key sequence
unchanged. -/
theorem keys_mapSet_of_mem (m : List (String × Tool)) (k : String) (v : Tool)
    (h : k ∈ m.map Prod.fst) :
    (mapSet m k v).map Prod.fst = m.map Prod.fst := by
  rw [mapSet, if_pos ((any_keys_iff m k).mpr h), List.map_map]
  apply List.map_congr_left
  intro p _
  by_cases hp : p.1 = k <;> simp [hp]

/-- Setting a fresh key appends it. -/
theorem keys_mapSet_of_not_mem (m : List (String × Tool)) (k : String) (v : Tool)
    (h : k ∉ m.map Prod.fst) :
    (mapSet m k v).map Prod.fst = m.map Prod.fst ++ [k] := by
  rw [mapSet, if_neg]
  · simp
  · intro hc
    exact h ((any_keys_iff m k).mp hc)

/-- After `Map.set`, the key is present. -/
theorem mem_keys_mapSet_self (m : List (String × Tool)) (k : String) (v : Tool) :
    k ∈ (mapSet m k v).map Prod.fst := by
  by_cases h : k ∈ m.map Prod.fst
  · rw [keys_mapSet_of_mem m k v h]
    exact h
  · rw [keys_mapSet_of_not_mem m k v h]
    simp

/-- `Map.set` never removes a key. -/
theorem mem_keys_mapSet_mono (m : List (String × Tool)) (k n : String) (v : Tool)
    (h : n ∈ m.map Prod.fst) :
    n ∈ (mapSet m k v).map Prod.fst := by
  by_cases hk : k ∈ m.map Prod.fst
  · rw [keys_mapSet_of_mem m k v hk]
    exact h
  · rw [keys_mapSet_of_not_mem m k v hk]
    exact List.mem_append_left _ h

/-- Replacing the entries keyed `n` makes `n` look up the new value. -/
theorem lookup_map_replace (m : List (String × Tool)) (n : String) (v : Tool)
    (h : n ∈ m.map Prod.fst) :
    (m.map (fun p => if p.1 = n then (n, v) else p)).lookup n = some v := by
  induction m with
  | nil => simp at h
  | cons p m ih =>
      obtain ⟨pk, pv⟩ := p
      by_cases hp : pk = n
      · subst hp
        simp [List.lookup_cons]
      · simp only [List.map_cons, if_neg hp, List.lookup_cons,
          beq_false_of_ne (Ne.symm hp), cond_false]
        apply ih
        rcases (by simpa using h : n = pk ∨ ∃ x, (n, x) ∈ m) with hc | hc
        · exact absurd hc.symm hp
        · rcases hc with ⟨x, hx⟩
          exact List.mem_map.mpr ⟨(n, x), hx, rfl⟩

/-- Setting a present key updates its value in place. -/
theorem mapSet_of_mem (m : List (String × Tool)) (k : String) (v : Tool)
    (h : k ∈ m.map Prod.fst) :
    mapSet m k v = m.map (fun p => if p.1 = k then (k, v) else p) := by
  rw [mapSet, if_pos ((any_keys_iff m k).mpr h)]

/-! ## Envelope well-formedness -/

/-- A well-formed response envelope correlated to request id `rid`:
tagged `jsonrpc: "2.0"`, carrying an `id` member holding `rid`, and
exactly one of `result`/`error`. -/
def EnvelopeWF (r rid : JsVal) : Prop :=
  ∃ rfs, r = JsVal.obj rfs ∧
    rfs.lookup "jsonrpc" = some (JsVal.str "2.0") ∧
    rfs.lookup "id" = some rid ∧
    ((rfs.lookup "result").isSome ↔ ¬ (rfs.lookup "error").isSome)

theorem envelopeWF_createErrorResponse (id : JsVal) (c : Int) (msg : String) :
    EnvelopeWF (createErrorResponse id c msg) id :=
  ⟨_, rfl, by simp [List.lookup], by simp [List.lookup], by simp [List.lookup]⟩

theorem envelopeWF_initializeResult (id : JsVal) :
    EnvelopeWF (initializeResult id) id :=
  ⟨_, rfl, by simp [List.lookup], by simp [List.lookup], by simp [List.lookup]⟩

theorem envelopeWF_toolsList (s : MCPServer) (id : JsVal) :
    EnvelopeWF (handleToolsList s id) id :=
  ⟨_, rfl, by simp [List.lookup], by simp [List.lookup], by simp [List.lookup]⟩

theorem envelopeWF_toolCallResult (id v : JsVal) :
    EnvelopeWF (toolCallResult id v) id :=
  ⟨_, rfl, by simp [List.lookup], by simp [List.lookup], by simp [List.lookup]⟩

/-! ## Claims -/

/-- **C9**: for every `notifications/initialized` message, `handleMessage`
returns no envelope (the `null` return value, which the transports must
not send back — both transports send only truthy responses), leaves the
engine state unchanged, and emits exactly one "initialized" signal. -/
theorem claim_notifications_initialized (s : MCPServer)
    (fs : List (String × JsVal))
    (hm : objLookup fs "method" = JsVal.str "notifications/initialized") :
    handleMessage s (JsVal.obj fs) =
      Except.ok ⟨s, JsVal.null, ["initialized"]⟩ :=
  handleMessage_obj_notif s fs hm

/-- Witness for **C9** at a concrete notification message. -/
theorem claim_notifications_initialized_witness :
    handleMessage MCPServer.init
      (JsVal.obj [("method", JsVal.str "notifications/initialized")]) =
      Except.ok ⟨MCPServer.init, JsVal.null, ["initialized"]⟩ :=
  claim_notifications_initialized MCPServer.init _ rfl

/-- **C8**: for every request whose method name is a string other than
the four recognized ones, `handleMessage` returns an error envelope with
code `-32601` whose message names the offending method. -/
theorem claim_method_not_found (s : MCPServer) (fs : List (String × JsVal))
    (mname : String)
    (hm : objLookup fs "method" = JsVal.str mname)
    (hn1 : mname ≠ "initialize") (hn2 : mname ≠ "tools/list")
    (hn3 : mname ≠ "tools/call") (hn4 : mname ≠ "notifications/initialized") :
    handleMessage s (JsVal.obj fs) =
      Except.ok ⟨s, createErrorResponse (objLookup fs "id") (-32601)
        ("Method not found: " ++ mname), []⟩ :=
  handleMessage_obj_default s fs mname hm hn1 hn2 hn3 hn4

/-- Witness for **C8** at the unrecognized method `"resources/list"`. -/
theorem claim_method_not_found_witness :
    handleMessage MCPServer.init
      (JsVal.obj [("method", JsVal.str "resources/list"), ("id", JsVal.num 7)]) =
      Except.ok ⟨MCPServer.init, createErrorResponse (JsVal.num 7) (-32601)
        ("Method not found: " ++ "resources/list"), []⟩ :=
  claim_method_not_found MCPServer.init _ "resources/list" rfl
    (by decide) (by decide) (by decide) (by decide)

/-- **C6**: for every registry state whose stored descriptor names agree
with their keys (an invariant `addTool` maintains), `tools/list` returns
a result envelope whose entries are the registry's descriptors in
registration (insertion) order; their names are exactly the registry's
key sequence, and each entry exposes only `name`, `description` and
`inputSchema` — never the handler. -/
theorem claim_tools_list (s : MCPServer) (fs : List (String × JsVal))
    (hm : objLookup fs "method" = JsVal.str "tools/list")
    (hwf : ∀ p ∈ s.tools, p.2.name = p.1) :
    (handleMessage s (JsVal.obj fs) =
      Except.ok ⟨s, JsVal.obj [("jsonrpc", JsVal.str "2.0"),
        ("id", objLookup fs "id"),
        ("result", JsVal.obj [("tools",
          JsVal.arr (s.tools.map (fun p => toolPublic p.2)))])], []⟩) ∧
    ((s.tools.map (fun p => toolPublic p.2)).map (fun e => propVal e "name") =
      s.tools.map (fun p => JsVal.str p.1)) ∧
    (∀ p ∈ s.tools, toolPublic p.2 =
      JsVal.obj [("name", JsVal.str p.2.name),
                 ("description", p.2.description),
                 ("inputSchema", p.2.inputSchema)]) := by
  refine ⟨handleMessage_obj_toolsList s fs hm, ?_, ?_⟩
  · rw [List.map_map]
    apply List.map_congr_left
    intro p hp
    have hname : propVal (toolPublic p.2) "name" = JsVal.str p.2.name := rfl
    simp only [Function.comp, hname, hwf p hp]
  · intro p _
    rfl

/-- A one-tool server used to witness the registry claims. -/
def demoServer : MCPServer :=
  MCPServer.init.addTool "demo" (JsVal.str "a demo tool") (JsVal.obj [])
    (fun _ => Except.ok JsVal.null)

/-- Witness for **C6** on a one-tool registry. -/
theorem claim_tools_list_witness :
    (handleMessage demoServer
        (JsVal.obj [("method", JsVal.str "tools/list"), ("id", JsVal.num 1)]) =
      Except.ok ⟨demoServer, JsVal.obj [("jsonrpc", JsVal.str "2.0"),
        ("id", objLookup [("method", JsVal.str "tools/list"), ("id", JsVal.num 1)] "id"),
        ("result", JsVal.obj [("tools",
          JsVal.arr (demoServer.tools.map (fun p => toolPublic p.2)))])], []⟩) ∧
    ((demoServer.tools.map (fun p => toolPublic p.2)).map (fun e => propVal e "name") =
      demoServer.tools.map (fun p => JsVal.str p.1)) ∧
    (∀ p ∈ demoServer.tools, toolPublic p.2 =
      JsVal.obj [("name", JsVal.str p.2.name),
                 ("description", p.2.description),
                 ("inputSchema", p.2.inputSchema)]) :=
  claim_tools_list demoServer _ rfl
    (by intro p hp
        simp only [demoServer, MCPServer.addTool, MCPServer.init, mapSet] at hp
        simp at hp
        subst hp
        rfl)

/-- **C7**: every `initialize` request whose params carry a
`capabilities` member gets the fixed result envelope — protocol version
`"2024-11-05"`, the fixed server identity and capability set, none of it
depending on the input capabilities — while the input capabilities are
stored in the session slot and never echoed. -/
theorem claim_initialize (s : MCPServer) (fs pfs : List (String × JsVal))
    (c : JsVal)
    (hm : objLookup fs "method" = JsVal.str "initialize")
    (hp : objLookup fs "params" = JsVal.obj pfs)
    (hc : objLookup pfs "capabilities" = c) :
    (handleMessage s (JsVal.obj fs) =
      Except.ok ⟨{ s with clientCapabilities := c },
        initializeResult (objLookup fs "id"), []⟩) ∧
    (propVal (propVal (initializeResult (objLookup fs "id")) "result")
        "protocolVersion" = JsVal.str "2024-11-05") ∧
    (propVal (propVal (initializeResult (objLookup fs "id")) "result")
        "serverInfo" =
      JsVal.obj [("name", JsVal.str "supabase-mcp-server"),
                 ("version", JsVal.str "1.0.0")]) ∧
    (propVal (propVal (initializeResult (objLookup fs "id")) "result")
        "capabilities" =
      JsVal.obj [
        ("tools", JsVal.obj [("listChanged", JsVal.bool false)]),
        ("resources", JsVal.obj [("subscribe", JsVal.bool false),
                                 ("listChanged", JsVal.bool false)]),
        ("prompts", JsVal.obj [("listChanged", JsVal.bool false)])]) := by
  subst hc
  refine ⟨?_, rfl, rfl, rfl⟩
  rw [handleMessage_obj_init s fs hm (by simp [hp]) (by simp [hp]), hp]
  rfl

/-- Witness for **C7** with `capabilities: {"foo": true}`. -/
theorem claim_initialize_witness :
    (handleMessage MCPServer.init
      (JsVal.obj [("method", JsVal.str "initialize"),
        ("params", JsVal.obj [("capabilities", JsVal.obj [("foo", JsVal.bool true)])]),
        ("id", JsVal.num 2)]) =
      Except.ok ⟨{ MCPServer.init with
          clientCapabilities := JsVal.obj [("foo", JsVal.bool true)] },
        initializeResult (JsVal.num 2), []⟩) ∧
    (propVal (propVal (initializeResult (JsVal.num 2)) "result")
        "protocolVersion" = JsVal.str "2024-11-05") ∧
    (propVal (propVal (initializeResult (JsVal.num 2)) "result")
        "serverInfo" =
      JsVal.obj [("name", JsVal.str "supabase-mcp-server"),
                 ("version", JsVal.str "1.0.0")]) ∧
    (propVal (propVal (initializeResult (JsVal.num 2)) "result")
        "capabilities" =
      JsVal.obj [
        ("tools", JsVal.obj [("listChanged", JsVal.bool false)]),
        ("resources", JsVal.obj [("subscribe", JsVal.bool false),
                                 ("listChanged", JsVal.bool false)]),
        ("prompts", JsVal.obj [("listChanged", JsVal.bool false)])]) :=
  claim_initialize MCPServer.init _ _ _ rfl rfl rfl

/-- **C4**: every `tools/call` naming a registered tool whose handler
rejects with message `msg` yields an error envelope with code `-32603`
whose message string includes the handler's own failure text (it is
`"Tool execution failed: "` followed by `msg`). -/
theorem claim_tool_handler_failure (s : MCPServer)
    (fs pfs : List (String × JsVal)) (tool : Tool) (msg : String)
    (hm : objLookup fs "method" = JsVal.str "tools/call")
    (hp : objLookup fs "params" = JsVal.obj pfs)
    (ht : mapGet s.tools (objLookup pfs "name") = some tool)
    (hh : tool.handler (objLookup pfs "arguments") = Except.error ⟨msg⟩) :
    (handleMessage s (JsVal.obj fs) =
      Except.ok ⟨s, createErrorResponse (objLookup fs "id") (-32603)
        ("Tool execution failed: " ++ msg), []⟩) ∧
    (∃ pre, "Tool execution failed: " ++ msg = pre ++ msg) := by
  refine ⟨?_, "Tool execution failed: ", rfl⟩
  rw [handleMessage_obj_toolsCall_err s fs tool ⟨msg⟩ hm (by simp [hp])
    (by simp [hp]) (by rw [hp]; exact ht) (by rw [hp]; exact hh)]

/-- A server with one always-failing tool, for the **C4** witness. -/
def failingServer : MCPServer :=
  MCPServer.init.addTool "boom" (JsVal.str "always fails") (JsVal.obj [])
    (fun _ => Except.error ⟨"kaboom"⟩)

/-- Witness for **C4** on the always-failing tool. -/
theorem claim_tool_handler_failure_witness :
    (handleMessage failingServer
      (JsVal.obj [("method", JsVal.str "tools/call"),
        ("params", JsVal.obj [("name", JsVal.str "boom"),
                              ("arguments", JsVal.obj [])]),
        ("id", JsVal.num 3)]) =
      Except.ok ⟨failingServer, createErrorResponse (JsVal.num 3) (-32603)
        ("Tool execution failed: " ++ "kaboom"), []⟩) ∧
    (∃ pre, "Tool execution failed: " ++ "kaboom" = pre ++ "kaboom") :=
  claim_tool_handler_failure failingServer _ _ _ "kaboom" rfl rfl rfl rfl

/-- **C5**: every `tools/call` naming a registered tool whose handler
returns a (serializable) value `v` yields a result envelope whose
`result.content` is an array of exactly one item of type `"text"` whose
text is the pretty-printed JSON serialization of `v`
(`JSON.stringify(v, null, 2)`). -/
theorem claim_tool_handler_success (s : MCPServer)
    (fs pfs : List (String × JsVal)) (tool : Tool) (v : JsVal) (vstr : String)
    (hm : objLookup fs "method" = JsVal.str "tools/call")
    (hp : objLookup fs "params" = JsVal.obj pfs)
    (ht : mapGet s.tools (objLookup pfs "name") = some tool)
    (hh : tool.handler (objLookup pfs "arguments") = Except.ok v)
    (hs : jsonStr "" v = some vstr) :
    handleMessage s (JsVal.obj fs) =
      Except.ok ⟨s, JsVal.obj [("jsonrpc", JsVal.str "2.0"),
        ("id", objLookup fs "id"),
        ("result", JsVal.obj [("content", JsVal.arr [
          JsVal.obj [("type", JsVal.str "text"),
                     ("text", JsVal.str vstr)]])])], []⟩ := by
  rw [handleMessage_obj_toolsCall_ok s fs tool v hm (by simp [hp])
    (by simp [hp]) (by rw [hp]; exact ht) (by rw [hp]; exact hh)]
  simp [toolCallResult, jsonTextOf, hs]

/-- A server with one succeeding tool, for the **C5** witness. -/
def echoServer : MCPServer :=
  MCPServer.init.addTool "echo" (JsVal.str "returns a fixed object")
    (JsVal.obj []) (fun _ => Except.ok (JsVal.obj [("ok", JsVal.bool true)]))

/-- Witness for **C5**: the handler's object result is pretty-printed
with two-space indentation into the single text content item. -/
theorem claim_tool_handler_success_witness :
    handleMessage echoServer
      (JsVal.obj [("method", JsVal.str "tools/call"),
        ("params", JsVal.obj [("name", JsVal.str "echo"),
                              ("arguments", JsVal.obj [])]),
        ("id", JsVal.num 4)]) =
      Except.ok ⟨echoServer, JsVal.obj [("jsonrpc", JsVal.str "2.0"),
        ("id", JsVal.num 4),
        ("result", JsVal.obj [("content", JsVal.arr [
          JsVal.obj [("type", JsVal.str "text"),
                     ("text", JsVal.str "\x7b\n  \"ok\": true\n\x7d")]])])], []⟩ :=
  claim_tool_handler_success echoServer _ _ _ _ "\x7b\n  \"ok\": true\n\x7d"
    rfl rfl rfl rfl rfl

/-- **C3**: every `tools/call` whose params name an unregistered tool
yields an error envelope with code `-32602` and the original
correlation id; and `-32602` arises from no other situation — any
`Except.ok` outcome of `handleMessage` whose envelope carries error
code `-32602` came from a `tools/call` whose (successfully
destructured) params named a tool absent from the registry.  Malformed
parameter shapes do not produce `-32602`: a `null`/`undefined` params
escapes as a rejection instead (see C1), and any other shape merely
makes the name lookup miss. -/
theorem claim_tool_not_found (s : MCPServer) (fs pfs : List (String × JsVal))
    (hm : objLookup fs "method" = JsVal.str "tools/call")
    (hp : objLookup fs "params" = JsVal.obj pfs)
    (hn : mapGet s.tools (objLookup pfs "name") = none) :
    (handleMessage s (JsVal.obj fs) =
      Except.ok ⟨s, createErrorResponse (objLookup fs "id") (-32602)
        ("Tool not found: " ++ jsToString (objLookup pfs "name")), []⟩) ∧
    (∀ (s' : MCPServer) (m : JsVal) (hr : HandleResult),
      handleMessage s' m = Except.ok hr →
      errorCode hr.response = some (-32602) →
      propVal m "method" = JsVal.str "tools/call" ∧
      mapGet s'.tools (propVal (propVal m "params") "name") = none) := by
  constructor
  · rw [handleMessage_obj_toolsCall_unreg s fs hm (by simp [hp]) (by simp [hp])
      (by rw [hp]; exact hn), hp]
    rfl
  · intro s' m hr h hc
    rcases handleMessage_ok_cases s' m hr h with ⟨_, rfl⟩ | ⟨_, hcase⟩
    · simp [errorCode, propVal] at hc
    · rcases hcase with rfl | ⟨_, rfl⟩ | ⟨_, emsg, rfl⟩ | ⟨_, rfl⟩ |
        ⟨hmt, hmg, rfl⟩ | ⟨_, tool, v, _, _, rfl⟩ | ⟨_, tool, e, _, _, rfl⟩
      · rw [errorCode_createErrorResponse] at hc
        exact absurd hc (by decide)
      · rw [errorCode_initializeResult] at hc
        exact absurd hc (by decide)
      · rw [errorCode_createErrorResponse] at hc
        exact absurd hc (by decide)
      · rw [errorCode_toolsList] at hc
        exact absurd hc (by decide)
      · exact ⟨hmt, hmg⟩
      · rw [errorCode_toolCallResult] at hc
        exact absurd hc (by decide)
      · rw [errorCode_createErrorResponse] at hc
        exact absurd hc (by decide)

/-- Witness for **C3**: calling the absent tool `"nope"` on the empty
registry. -/
theorem claim_tool_not_found_witness :
    (handleMessage MCPServer.init
      (JsVal.obj [("method", JsVal.str "tools/call"),
        ("params", JsVal.obj [("name", JsVal.str "nope"),
                              ("arguments", JsVal.obj [])]),
        ("id", JsVal.num 5)]) =
      Except.ok ⟨MCPServer.init, createErrorResponse (JsVal.num 5) (-32602)
        ("Tool not found: " ++
          jsToString (objLookup [("name", JsVal.str "nope"),
            ("arguments", JsVal.obj [])] "name")), []⟩) ∧
    (∀ (s' : MCPServer) (m : JsVal) (hr : HandleResult),
      handleMessage s' m = Except.ok hr →
      errorCode hr.response = some (-32602) →
      propVal m "method" = JsVal.str "tools/call" ∧
      mapGet s'.tools (propVal (propVal m "params") "name") = none) :=
  claim_tool_not_found MCPServer.init _ _ rfl rfl rfl

/-- A well-formed envelope is an object, hence not the `null`
no-response marker. -/
theorem envelopeWF_ne_null (r rid : JsVal) (hwf : EnvelopeWF r rid) :
    r ≠ JsVal.null := by
  rcases hwf with ⟨rfs, rfl, _⟩
  simp

/-- **C2**: every envelope a non-rejecting `handleMessage` call returns
is tagged `jsonrpc: "2.0"`, carries an `id` member holding the request's
`id` property, and has exactly one of `result`/`error`; the `null`
no-envelope return happens exactly for `notifications/initialized`
(one-way notifications receive no envelope, every other handled request
exactly one); and a succeeding tool invocation is framed under `result`
(never `error`) while a failing one is framed under `error` (never
`result`). -/
theorem claim_envelope_framing :
    (∀ (s : MCPServer) (m : JsVal) (hr : HandleResult),
      handleMessage s m = Except.ok hr →
      ((hr.response = JsVal.null ↔
          propVal m "method" = JsVal.str "notifications/initialized") ∧
       (hr.response ≠ JsVal.null → EnvelopeWF hr.response (propVal m "id")))) ∧
    (∀ (s : MCPServer) (fs pfs : List (String × JsVal)) (tool : Tool) (v : JsVal),
      objLookup fs "method" = JsVal.str "tools/call" →
      objLookup fs "params" = JsVal.obj pfs →
      mapGet s.tools (objLookup pfs "name") = some tool →
      tool.handler (objLookup pfs "arguments") = Except.ok v →
      ∃ rfs, handleMessage s (JsVal.obj fs) = Except.ok ⟨s, JsVal.obj rfs, []⟩ ∧
        (rfs.lookup "result").isSome = true ∧ rfs.lookup "error" = none) ∧
    (∀ (s : MCPServer) (fs pfs : List (String × JsVal)) (tool : Tool) (e : JsError),
      objLookup fs "method" = JsVal.str "tools/call" →
      objLookup fs "params" = JsVal.obj pfs →
      mapGet s.tools (objLookup pfs "name") = some tool →
      tool.handler (objLookup pfs "arguments") = Except.error e →
      ∃ rfs, handleMessage s (JsVal.obj fs) = Except.ok ⟨s, JsVal.obj rfs, []⟩ ∧
        (rfs.lookup "error").isSome = true ∧ rfs.lookup "result" = none) := by
  refine ⟨?_, ?_, ?_⟩
  · intro s m hr h
    rcases handleMessage_ok_cases s m hr h with ⟨hmeth, rfl⟩ | ⟨hne, hcase⟩
    · exact ⟨⟨fun _ => hmeth, fun _ => rfl⟩, fun hnn => absurd rfl hnn⟩
    · have finish : ∀ resp : JsVal, EnvelopeWF resp (propVal m "id") →
        ((resp = JsVal.null ↔
            propVal m "method" = JsVal.str "notifications/initialized") ∧
         (resp ≠ JsVal.null → EnvelopeWF resp (propVal m "id"))) :=
        fun resp hwf =>
          ⟨iff_of_false (envelopeWF_ne_null _ _ hwf) hne, fun _ => hwf⟩
      rcases hcase with rfl | ⟨_, rfl⟩ | ⟨_, emsg, rfl⟩ | ⟨_, rfl⟩ |
        ⟨_, _, rfl⟩ | ⟨_, tool, v, _, _, rfl⟩ | ⟨_, tool, e, _, _, rfl⟩
      · exact finish _ (envelopeWF_createErrorResponse _ _ _)
      · exact finish _ (envelopeWF_initializeResult _)
      · exact finish _ (envelopeWF_createErrorResponse _ _ _)
      · exact finish _ (envelopeWF_toolsList _ _)
      · exact finish _ (envelopeWF_createErrorResponse _ _ _)
      · exact finish _ (envelopeWF_toolCallResult _ _)
      · exact finish _ (envelopeWF_createErrorResponse _ _ _)
  · intro s fs pfs tool v hm hp ht hh
    refine ⟨[("jsonrpc", JsVal.str "2.0"), ("id", objLookup fs "id"),
      ("result", JsVal.obj [("content", JsVal.arr [
        JsVal.obj [("type", JsVal.str "text"), ("text", jsonTextOf v)]])])],
      ?_, by simp [List.lookup], by simp [List.lookup]⟩
    rw [handleMessage_obj_toolsCall_ok s fs tool v hm (by simp [hp])
      (by simp [hp]) (by rw [hp]; exact ht) (by rw [hp]; exact hh)]
    rfl
  · intro s fs pfs tool e hm hp ht hh
    refine ⟨[("jsonrpc", JsVal.str "2.0"), ("id", objLookup fs "id"),
      ("error", JsVal.obj [("code", JsVal.num (-32603)),
        ("message", JsVal.str ("Tool execution failed: " ++ e.message))])],
      ?_, by simp [List.lookup], by simp [List.lookup]⟩
    rw [handleMessage_obj_toolsCall_err s fs tool e hm (by simp [hp])
      (by simp [hp]) (by rw [hp]; exact ht) (by rw [hp]; exact hh)]
    rfl

/-- Witness for **C2**, applying its framing clause to a concrete
handled message. -/
theorem claim_envelope_framing_witness :
    ((JsVal.null = JsVal.null ↔
        propVal (JsVal.obj [("method", JsVal.str "notifications/initialized")])
          "method" = JsVal.str "notifications/initialized") ∧
     (JsVal.null ≠ JsVal.null →
        EnvelopeWF JsVal.null
          (propVal (JsVal.obj [("method", JsVal.str "notifications/initialized")])
            "id"))) :=
  claim_envelope_framing.1 MCPServer.init _
    ⟨MCPServer.init, JsVal.null, ["initialized"]⟩ rfl

/-- **C1** as stated is false: on the `null` envelope (obtainable from
the transport, e.g. `JSON.parse("null")`) the destructuring
`const { method, params, id } = message` throws, and the `catch` block's
own `message.id` access throws again, so the exception escapes
`handleMessage` to the transport layer instead of being converted into a
`-32603` envelope. -/
theorem claim_dispatch_no_escape_counterexample :
    handleMessage MCPServer.init JsVal.null =
      Except.error ⟨"Cannot read properties of null (reading id)"⟩ := rfl

/-- **C1 (amended)**: if the incoming envelope is an object, a failure
raised synchronously while handling a recognized method (possible only
for `initialize`, when its params is `null`/`undefined`) is converted
into an error envelope with code `-32603` echoing the envelope's `id`
property.  The conversion does not extend to (a) an envelope that is
itself `null`/`undefined`, where the `catch` block's own `message.id`
access throws and the exception escapes, nor (b) a `tools/call` whose
params is `null`/`undefined`, whose rejection escapes because the
promise is returned without `await`.  A missing `method` field raises no
failure at all: it is answered with `-32601`, not `-32603`. -/
theorem claim_dispatch_failure_conversion :
    (∀ (s : MCPServer) (fs : List (String × JsVal)),
      objLookup fs "method" = JsVal.str "initialize" →
      (objLookup fs "params" = JsVal.null ∨
       objLookup fs "params" = JsVal.undef) →
      ∃ emsg, handleMessage s (JsVal.obj fs) =
        Except.ok ⟨s, createErrorResponse (objLookup fs "id") (-32603) emsg, []⟩) ∧
    (∀ s : MCPServer,
      (∃ e, handleMessage s JsVal.null = Except.error e) ∧
      (∃ e, handleMessage s JsVal.undef = Except.error e)) ∧
    (∀ (s : MCPServer) (fs : List (String × JsVal)),
      objLookup fs "method" = JsVal.str "tools/call" →
      (objLookup fs "params" = JsVal.null ∨
       objLookup fs "params" = JsVal.undef) →
      ∃ e, handleMessage s (JsVal.obj fs) = Except.error e) ∧
    (∀ (s : MCPServer) (fs : List (String × JsVal)),
      objLookup fs "method" = JsVal.undef →
      handleMessage s (JsVal.obj fs) =
        Except.ok ⟨s, createErrorResponse (objLookup fs "id") (-32601)
          ("Method not found: " ++ jsToString JsVal.undef), []⟩) := by
  refine ⟨handleMessage_obj_init_badparams, ?_, handleMessage_obj_toolsCall_badparams, ?_⟩
  · exact fun s => ⟨⟨_, rfl⟩, ⟨_, rfl⟩⟩
  · intro s fs hm
    exact handleMessage_obj_nonstr s fs JsVal.undef hm (by simp)

/-- Witness for **C1 (amended)**: a concrete `initialize` with missing
params is converted to `-32603`. -/
theorem claim_dispatch_failure_conversion_witness :
    ∃ emsg, handleMessage MCPServer.init
        (JsVal.obj [("method", JsVal.str "initialize")]) =
      Except.ok ⟨MCPServer.init,
        createErrorResponse JsVal.undef (-32603) emsg, []⟩ :=
  claim_dispatch_failure_conversion.1 MCPServer.init _ rfl (Or.inr rfl)

/-- One startup registration step: `addTool` applied to a registration
tuple (name, description, inputSchema, handler), as the startup wiring
does for each tool. -/
def regStep (acc : MCPServer)
    (r : String × JsVal × JsVal × (JsVal → Except JsError JsVal)) : MCPServer :=
  acc.addTool r.1 r.2.1 r.2.2.1 r.2.2.2

/-- Registration never removes a key from the registry. -/
theorem mem_keys_foldl_regStep
    (rest : List (String × JsVal × JsVal × (JsVal → Except JsError JsVal)))
    (acc : MCPServer) (n : String)
    (h : n ∈ acc.tools.map Prod.fst) :
    n ∈ (rest.foldl regStep acc).tools.map Prod.fst := by
  induction rest generalizing acc with
  | nil => exact h
  | cons r rest ih =>
      exact ih _ (mem_keys_mapSet_mono _ _ _ _ h)

/-- **C10**: after registering `n`, then any other tools, re-registering
`n` replaces its descriptor in place: the registry's key sequence (and
hence the `tools/list` order) is unchanged from the first registration's
insertion order, `n` now looks up the new descriptor, and the
`tools/list` entries are unchanged except that `n`'s entry shows the new
descriptor's public fields. -/
theorem claim_addTool_reregister (s : MCPServer) (n : String)
    (d1 i1 d2 i2 : JsVal) (h1 h2 : JsVal → Except JsError JsVal)
    (rest : List (String × JsVal × JsVal × (JsVal → Except JsError JsVal))) :
    (((rest.foldl regStep (s.addTool n d1 i1 h1)).addTool n d2 i2 h2).tools =
      (rest.foldl regStep (s.addTool n d1 i1 h1)).tools.map
        (fun p => if p.1 = n then (n, ⟨n, d2, i2, h2⟩) else p)) ∧
    (((rest.foldl regStep (s.addTool n d1 i1 h1)).addTool n d2 i2 h2).tools.map
        Prod.fst =
      (rest.foldl regStep (s.addTool n d1 i1 h1)).tools.map Prod.fst) ∧
    (((rest.foldl regStep (s.addTool n d1 i1 h1)).addTool n d2 i2 h2).tools.lookup
        n = some ⟨n, d2, i2, h2⟩) ∧
    (((rest.foldl regStep (s.addTool n d1 i1 h1)).addTool n d2 i2 h2).tools.map
        (fun p => toolPublic p.2) =
      (rest.foldl regStep (s.addTool n d1 i1 h1)).tools.map
        (fun p => if p.1 = n then toolPublic ⟨n, d2, i2, h2⟩
                  else toolPublic p.2)) := by
  have hmem : n ∈ (rest.foldl regStep (s.addTool n d1 i1 h1)).tools.map Prod.fst :=
    mem_keys_foldl_regStep rest _ n (mem_keys_mapSet_self _ _ _)
  have heq : ((rest.foldl regStep (s.addTool n d1 i1 h1)).addTool n d2 i2 h2).tools =
      (rest.foldl regStep (s.addTool n d1 i1 h1)).tools.map
        (fun p => if p.1 = n then (n, ⟨n, d2, i2, h2⟩) else p) :=
    mapSet_of_mem _ _ _ hmem
  refine ⟨heq, keys_mapSet_of_mem _ _ _ hmem, ?_, ?_⟩
  · rw [heq]
    exact lookup_map_replace _ _ _ hmem
  · rw [heq, List.map_map]
    apply List.map_congr_left
    intro p _
    by_cases hp : p.1 = n <;> simp [hp]
